import Mathlib

/-!
ArdunakonProtocol: a shallow embedding of the 10-byte frame codec.

The definitions follow `ArdunakonProtocol.h` and `ArdunakonProtocol.cpp`.

* A `uint8_t` is a natural number below 256 (`Fin 256`); every computation on
  bytes is carried out on `Nat`/`Int` and narrowed with an explicit `% 256`.
* An `int8_t` field is an `Int`; every store into such a field goes through
  `toInt8`, the modulo-256 narrowing into the signed range [-128, 127].
* A buffer (`uint8_t*` pointing at a 10-byte frame) is a function from the ten
  indices to bytes; a write is `Function.update`.
* A finite `float` (IEEE 754 binary32) is the rational number it denotes. The
  `float` argument of `formatTelemetry` ranges over the rationals, which include
  every finite binary32 value; comparison with 25.0 is exact, the product
  `voltage * 10` is rounded to the nearest binary32 value (ties to even) by
  `roundFloat32`, and the conversion to `uint8_t` truncates toward zero.
-/

namespace ArdunakonProtocol

/-! ## Machine types -/

/-- An 8-bit unsigned value. -/
abbrev uint8_t := Fin 256

/-- A 32-bit unsigned value. -/
abbrev uint32_t := Fin 4294967296

/-- A pointer to a 10-byte frame: index 0 to 9, each cell one byte. -/
abbrev Buffer := Fin 10 → uint8_t

/-- Narrowing of a natural number to `uint8_t` (keeps the low 8 bits). -/
def toUInt8 (n : Nat) : uint8_t := ⟨n % 256, Nat.mod_lt n (by decide)⟩

/-- Narrowing of an integer to `int8_t`: the value is taken modulo 256 into the
signed range [-128, 127]. -/
def toInt8 (x : Int) : Int := (x + 128) % 256 - 128

/-- Conversion of a float (given by its rational value) to `uint8_t`: the
fractional part is discarded (truncation toward zero), then the low 8 bits are
kept. -/
def floatToUInt8 (q : ℚ) : uint8_t :=
  toUInt8 (Int.toNat ((if 0 ≤ q then Int.floor q else Int.ceil q) % 256))

/-- Rounding of a rational to the nearest integer, a tie going to the even
neighbour. -/
def roundHalfEven (x : ℚ) : Int :=
  let f := Int.floor x
  if x - f < 1 / 2 then f
  else if 1 / 2 < x - f then f + 1
  else if f % 2 = 0 then f else f + 1

/-- The spacing of the binary32 grid around `q`: `2 ^ (e - 23)` where `e` is the
binary exponent of `q` (24-bit significand), with `e` not below -126
(subnormal range). -/
def float32Ulp (q : ℚ) : ℚ := (2 : ℚ) ^ (max (Int.log 2 |q|) (-126) - 23)

/-- The result of a binary32 arithmetic operation whose exact value is `q`: the
nearest multiple of `float32Ulp q`, ties to even (the IEEE 754 default rounding).
Overflow to infinity (magnitudes of 2^128 and above) is not represented. -/
def roundFloat32 (q : ℚ) : ℚ := (roundHalfEven (q / float32Ulp q) : ℚ) * float32Ulp q

/-- Modelled from the spec: the Arduino core function `map` (declared by
`Arduino.h`, which is not part of the library sources), the standard integer
range mapping `(x - in_min) * (out_max - out_min) / (in_max - in_min) + out_min`
on `long`, with C division truncating toward zero. -/
def map (x in_min in_max out_min out_max : Int) : Int :=
  Int.tdiv ((x - in_min) * (out_max - out_min)) (in_max - in_min) + out_min

/-! ## Constants (`ArdunakonProtocol.h`) -/

def START_BYTE : uint8_t := 0xAA
def END_BYTE : uint8_t := 0x55
def PACKET_SIZE : uint8_t := 10

def CMD_JOYSTICK : uint8_t := 0x01
def CMD_BUTTON : uint8_t := 0x02
def CMD_HEARTBEAT : uint8_t := 0x03
def CMD_ESTOP : uint8_t := 0x04
def CMD_ANNOUNCE_CAPABILITIES : uint8_t := 0x05
def CMD_SERVO_Z : uint8_t := 0x06
def CMD_TELEMETRY : uint8_t := 0x10

def AUX_W : uint8_t := 0x01
def AUX_A : uint8_t := 0x02
def AUX_L : uint8_t := 0x04
def AUX_R : uint8_t := 0x08
def AUX_B : uint8_t := 0x02

/-- The decoded packet. The `int8_t` fields are integers that every store keeps
within [-128, 127] through `toInt8`. -/
structure ControlPacket where
  cmd : uint8_t
  leftX : Int
  leftY : Int
  rightX : Int
  rightY : Int
  rightZ : Int
  auxBits : uint8_t
  valid : Bool
  deriving DecidableEq

/-! ## Functions (`ArdunakonProtocol.cpp`) -/

/-- Map 0-200 raw byte to -100 to 100 signed int. The parameter is clamped to
200, passed to `map` as a `long`, and the result is narrowed to `int8_t`. -/
def mapJoystickValue (val : uint8_t) : Int :=
  let val : uint8_t := if val > 200 then 200 else val
  toInt8 (map (val.val : Int) 0 200 (-100) 100)

/-- Validate XOR checksum: the sentinels are checked first, then the loop
`for (i = 1; i <= 7; i++) xor_check ^= buffer[i]` runs on a `uint8_t`
accumulator and the result is compared with `buffer[8]`. -/
def validateChecksum (buffer : Buffer) : Bool :=
  if buffer 0 ≠ START_BYTE ∨ buffer 9 ≠ END_BYTE then false
  else
    let xor_check : Nat :=
      (List.range' 1 7).foldl
        (fun xor_check i => (xor_check ^^^ (buffer (Fin.ofNat i)).val) % 256) 0
    decide (xor_check = (buffer 8).val)

/-- Create XOR checksum and place it in `buffer[8]`. -/
def createChecksum (buffer : Buffer) : Buffer :=
  let xor_check : Nat :=
    (List.range' 1 7).foldl
      (fun xor_check i => (xor_check ^^^ (buffer (Fin.ofNat i)).val) % 256) 0
  Function.update buffer 8 (toUInt8 xor_check)

/-- Parse a raw 10-byte buffer into a `ControlPacket`. -/
def parsePacket (buffer : Buffer) : ControlPacket :=
  let packet : ControlPacket :=
    { valid := validateChecksum buffer, cmd := 0, leftX := 0, leftY := 0,
      rightX := 0, rightY := 0, rightZ := 0, auxBits := 0 }
  if !packet.valid then packet
  else
    let packet := { packet with cmd := buffer 2 }
    if packet.cmd = CMD_JOYSTICK then
      { packet with
        leftX := mapJoystickValue (buffer 3)
        leftY := mapJoystickValue (buffer 4)
        rightX := mapJoystickValue (buffer 5)
        rightY := mapJoystickValue (buffer 6)
        auxBits := buffer 7 }
    else if packet.cmd = CMD_BUTTON then
      { packet with
        leftX := toInt8 ((buffer 3).val : Int)
        leftY := toInt8 ((buffer 4).val : Int)
        auxBits := buffer 3 }
    else if packet.cmd = CMD_SERVO_Z then
      { packet with rightZ := mapJoystickValue (buffer 3) }
    else packet

/-- Format a standardised telemetry packet (the buffer is written in place; the
function returns the buffer after the call). `voltage * 10` is a binary32
product: the exact product rounded by `roundFloat32`. -/
def formatTelemetry (buffer : Buffer) (deviceId : uint8_t) (voltage : ℚ)
    (statusFlags : uint8_t) (packetsReceived : uint32_t) : Buffer :=
  let buffer := Function.update buffer 0 START_BYTE
  let buffer := Function.update buffer 1 deviceId
  let buffer := Function.update buffer 2 CMD_TELEMETRY
  let voltage : ℚ := if voltage > 25 then 25 else voltage
  let buffer := Function.update buffer 3 (floatToUInt8 (roundFloat32 (voltage * 10)))
  let buffer := Function.update buffer 4 statusFlags
  let buffer := Function.update buffer 5 (toUInt8 (packetsReceived.val &&& 0xFF))
  let buffer := Function.update buffer 6 0x00
  let buffer := Function.update buffer 7 0x00
  let buffer := createChecksum buffer
  Function.update buffer 9 END_BYTE

/-! ## Vocabulary of the claims -/

/-- The XOR of the seven bytes at indices 1 through 7, written out. -/
def xor17 (b : Buffer) : Nat :=
  (b 1).val ^^^ (b 2).val ^^^ (b 3).val ^^^ (b 4).val ^^^ (b 5).val ^^^ (b 6).val ^^^ (b 7).val

/-- A frame is well-formed when both sentinels are in place and byte 8 is the
XOR of bytes 1 through 7. -/
def WellFormed (b : Buffer) : Prop :=
  b 0 = 0xAA ∧ b 9 = 0x55 ∧ (b 8).val = xor17 b

instance (b : Buffer) : Decidable (WellFormed b) := by
  unfold WellFormed; infer_instance

/-- The voltage byte `(uint8_t)(voltage * 10)` after the clamp at 25.0, as
`formatTelemetry` computes it. -/
def voltageByte (voltage : ℚ) : uint8_t :=
  floatToUInt8 (roundFloat32 ((if voltage > 25 then 25 else voltage) * 10))

/-! ## Concrete frames used as test inputs -/

/-- A frame with the wrong start byte, a BUTTON command and a non-zero payload. -/
def badStartFrame : Buffer := ![0x00, 0x01, 0x02, 7, 1, 9, 9, 9, 0x0D, 0x55]

/-- The JOYSTICK scenario frame: device 0x01, payload [100, 0, 200, 0, 0x00],
checksum 0x01 xor 0x01 xor 100 xor 200 = 0xAC. -/
def joystickFrame : Buffer := ![0xAA, 0x01, 0x01, 100, 0, 200, 0, 0x00, 0xAC, 0x55]

/-- A BUTTON frame with button ID 200 and state 1; checksum
0x01 xor 0x02 xor 200 xor 1 = 0xCA. -/
def buttonFrame200 : Buffer := ![0xAA, 0x01, 0x02, 200, 1, 0, 0, 0, 0xCA, 0x55]

/-- A BUTTON frame with button ID 127 and state byte 128; checksum
0x01 xor 0x02 xor 127 xor 128 = 0xFC. -/
def buttonFrame127 : Buffer := ![0xAA, 0x01, 0x02, 127, 128, 0, 0, 0, 0xFC, 0x55]

/-- A SERVO_Z frame with non-zero bytes 4 to 7; checksum 0x81. -/
def servoFrame : Buffer := ![0xAA, 0x01, 0x06, 150, 11, 22, 33, 44, 0x81, 0x55]

/-- An ESTOP frame with a non-zero payload; checksum 0x04. -/
def estopFrame : Buffer := ![0xAA, 0x01, 0x04, 1, 2, 3, 4, 5, 0x04, 0x55]

/-- A buffer holding arbitrary previous content (all bytes 0xFF). -/
def staleBuffer : Buffer := fun _ => 0xFF

/-- The binary32 value nearest to 0.7 (bit pattern 0x3F333333), slightly below
0.7. -/
def voltage0p7f : ℚ := 11744051 / 16777216

/-- The binary32 value nearest to 7.4 (bit pattern 0x40ECCCCD), slightly above
7.4. -/
def voltage7p4f : ℚ := 15518925 / 2097152

/-- A HEARTBEAT frame with both sentinels in place and a wrong checksum byte
(0x00 where 0x01 xor 0x03 = 0x02 is due). -/
def badChecksumFrame : Buffer := ![0xAA, 0x01, 0x03, 0, 0, 0, 0, 0, 0x00, 0x55]

/-- The payload indices 1 to 7, in loop order. -/
def payloadIndices : List (Fin 10) := [1, 2, 3, 4, 5, 6, 7]

/-! ## Auxiliary lemmas -/

theorem xor_byte_lt (a : Nat) (x : uint8_t) (h : a < 256) : a ^^^ x.val < 256 :=
  @Nat.xor_lt_two_pow a x.val 8 h x.isLt

theorem xor_byte_mod (a : Nat) (x : uint8_t) (h : a < 256) :
    (a ^^^ x.val) % 256 = a ^^^ x.val :=
  Nat.mod_eq_of_lt (xor_byte_lt a x h)

theorem xor17_lt (b : Buffer) : xor17 b < 256 := by
  unfold xor17
  repeat first
    | exact (b 1).isLt
    | apply xor_byte_lt

/-- The checksum loop, unrolled: seven XOR steps on a byte accumulator give the
XOR of bytes 1 through 7. -/
theorem xorLoop_eq (b : Buffer) :
    (List.range' 1 7).foldl
        (fun xor_check i => (xor_check ^^^ (b (Fin.ofNat i)).val) % 256) 0 = xor17 b := by
  have h1 : (0 ^^^ (b 1).val) % 256 = (b 1).val := by
    rw [Nat.zero_xor]; exact Nat.mod_eq_of_lt (b 1).isLt
  have e1 : (Fin.ofNat 1 : Fin 10) = 1 := rfl
  have e2 : (Fin.ofNat 2 : Fin 10) = 2 := rfl
  have e3 : (Fin.ofNat 3 : Fin 10) = 3 := rfl
  have e4 : (Fin.ofNat 4 : Fin 10) = 4 := rfl
  have e5 : (Fin.ofNat 5 : Fin 10) = 5 := rfl
  have e6 : (Fin.ofNat 6 : Fin 10) = 6 := rfl
  have e7 : (Fin.ofNat 7 : Fin 10) = 7 := rfl
  simp only [List.range', List.foldl, e1, e2, e3, e4, e5, e6, e7, h1]
  have l1 := (b 1).isLt
  have l2 := xor_byte_lt _ (b 2) l1
  have l3 := xor_byte_lt _ (b 3) l2
  have l4 := xor_byte_lt _ (b 4) l3
  have l5 := xor_byte_lt _ (b 5) l4
  have l6 := xor_byte_lt _ (b 6) l5
  rw [xor_byte_mod _ (b 2) l1, xor_byte_mod _ (b 3) l2, xor_byte_mod _ (b 4) l3,
    xor_byte_mod _ (b 5) l4, xor_byte_mod _ (b 6) l5, xor_byte_mod _ (b 7) l6]
  rfl

theorem validateChecksum_eq_decide (b : Buffer) :
    validateChecksum b = decide (WellFormed b) := by
  unfold validateChecksum WellFormed
  have hc : (xor17 b = (b 8).val) ↔ ((b 8).val = xor17 b) := eq_comm
  simp only [xorLoop_eq, START_BYTE, END_BYTE, hc]
  by_cases h0 : b 0 = 0xAA <;> by_cases h9 : b 9 = 0x55 <;>
    by_cases h8 : (b 8).val = xor17 b <;> simp [h0, h9, h8]

theorem validateChecksum_of_wellFormed (b : Buffer) (h : WellFormed b) :
    validateChecksum b = true := by
  rw [validateChecksum_eq_decide]; exact decide_eq_true h

theorem validateChecksum_of_not_wellFormed (b : Buffer) (h : ¬ WellFormed b) :
    validateChecksum b = false := by
  rw [validateChecksum_eq_decide]; exact decide_eq_false h

theorem map_joystick (x : Int) : map x 0 200 (-100) 100 = x - 100 := by
  unfold map
  have h : (x - 0) * (100 - -100) = x * 200 := by ring
  have h2 : (200 : Int) - 0 = 200 := by decide
  rw [h, h2, Int.mul_tdiv_cancel x (by decide : (200 : Int) ≠ 0)]
  ring

theorem mapJoystickValue_eq (raw : uint8_t) :
    mapJoystickValue raw = min (raw.val : Int) 200 - 100 := by
  unfold mapJoystickValue
  simp only [map_joystick, toInt8]
  have hlt := raw.isLt
  by_cases h : raw > 200
  · have h' : 200 < raw.val := h
    rw [if_pos h]
    have : ((200 : uint8_t).val : Int) = 200 := rfl
    rw [this]
    omega
  · have h' : ¬ 200 < raw.val := h
    rw [if_neg h]
    omega

theorem mapJoystickValue_range (raw : uint8_t) :
    -100 ≤ mapJoystickValue raw ∧ mapJoystickValue raw ≤ 100 := by
  rw [mapJoystickValue_eq]
  omega

theorem toInt8_range (x : Int) : -128 ≤ toInt8 x ∧ toInt8 x ≤ 127 := by
  unfold toInt8
  omega

theorem toInt8_byte (x : uint8_t) :
    toInt8 (x.val : Int) = if x.val ≤ 127 then (x.val : Int) else (x.val : Int) - 256 := by
  have hlt := x.isLt
  unfold toInt8
  split <;> omega

theorem parsePacket_of_not_wellFormed (b : Buffer) (h : ¬ WellFormed b) :
    parsePacket b =
      { cmd := 0, leftX := 0, leftY := 0, rightX := 0, rightY := 0, rightZ := 0,
        auxBits := 0, valid := false } := by
  simp [parsePacket, validateChecksum_of_not_wellFormed b h]

theorem parsePacket_of_joystick (b : Buffer) (hwf : WellFormed b) (hcmd : b 2 = 0x01) :
    parsePacket b =
      { cmd := 0x01, leftX := mapJoystickValue (b 3), leftY := mapJoystickValue (b 4),
        rightX := mapJoystickValue (b 5), rightY := mapJoystickValue (b 6),
        rightZ := 0, auxBits := b 7, valid := true } := by
  simp [parsePacket, validateChecksum_of_wellFormed b hwf, hcmd, CMD_JOYSTICK]

theorem parsePacket_of_button (b : Buffer) (hwf : WellFormed b) (hcmd : b 2 = 0x02) :
    parsePacket b =
      { cmd := 0x02, leftX := toInt8 ((b 3).val : Int), leftY := toInt8 ((b 4).val : Int),
        rightX := 0, rightY := 0, rightZ := 0, auxBits := b 3, valid := true } := by
  simp [parsePacket, validateChecksum_of_wellFormed b hwf, hcmd, CMD_JOYSTICK, CMD_BUTTON]

theorem parsePacket_of_servoZ (b : Buffer) (hwf : WellFormed b) (hcmd : b 2 = 0x06) :
    parsePacket b =
      { cmd := 0x06, leftX := 0, leftY := 0, rightX := 0, rightY := 0,
        rightZ := mapJoystickValue (b 3), auxBits := 0, valid := true } := by
  simp [parsePacket, validateChecksum_of_wellFormed b hwf, hcmd, CMD_JOYSTICK,
    CMD_BUTTON, CMD_SERVO_Z]

theorem parsePacket_of_other (b : Buffer) (hwf : WellFormed b)
    (h1 : b 2 ≠ 0x01) (h2 : b 2 ≠ 0x02) (h6 : b 2 ≠ 0x06) :
    parsePacket b =
      { cmd := b 2, leftX := 0, leftY := 0, rightX := 0, rightY := 0, rightZ := 0,
        auxBits := 0, valid := true } := by
  simp [parsePacket, validateChecksum_of_wellFormed b hwf, h1, h2, h6, CMD_JOYSTICK,
    CMD_BUTTON, CMD_SERVO_Z]

theorem toUInt8_val_of_lt (n : Nat) (h : n < 256) : (toUInt8 n).val = n :=
  Nat.mod_eq_of_lt h

theorem createChecksum_eq (b : Buffer) :
    createChecksum b = Function.update b 8 (toUInt8 (xor17 b)) := by
  unfold createChecksum
  simp only [xorLoop_eq]

theorem xor17_update_8 (b : Buffer) (v : uint8_t) :
    xor17 (Function.update b 8 v) = xor17 b := by
  simp [xor17, Function.update]

theorem xor17_update_9 (b : Buffer) (v : uint8_t) :
    xor17 (Function.update b 9 v) = xor17 b := by
  simp [xor17, Function.update]

/-- The frame written by `formatTelemetry` is well-formed, whatever the
arguments and the previous content of the buffer. -/
theorem formatTelemetry_wellFormed (buffer : Buffer) (deviceId : uint8_t) (voltage : ℚ)
    (statusFlags : uint8_t) (packetsReceived : uint32_t) :
    WellFormed (formatTelemetry buffer deviceId voltage statusFlags packetsReceived) := by
  unfold formatTelemetry
  simp only [createChecksum_eq]
  refine ⟨?_, ?_, ?_⟩
  · simp [Function.update, START_BYTE]
  · simp [Function.update, END_BYTE]
  · rw [xor17_update_9, xor17_update_8]
    have h : ∀ (c : Buffer) (v w : uint8_t),
        Function.update (Function.update c 8 v) 9 w 8 = v := by
      intro c v w; simp [Function.update]
    rw [h, toUInt8_val_of_lt _ (xor17_lt _)]

/-- Closed form of the frame written by `formatTelemetry`: all ten bytes are
determined by the arguments. -/
theorem formatTelemetry_eq (buffer : Buffer) (deviceId : uint8_t) (voltage : ℚ)
    (statusFlags : uint8_t) (packetsReceived : uint32_t) :
    formatTelemetry buffer deviceId voltage statusFlags packetsReceived =
      ![0xAA, deviceId, 0x10, voltageByte voltage, statusFlags,
        toUInt8 (packetsReceived.val &&& 0xFF), 0, 0,
        toUInt8 (deviceId.val ^^^ 0x10 ^^^ (voltageByte voltage).val ^^^ statusFlags.val ^^^
          (toUInt8 (packetsReceived.val &&& 0xFF)).val ^^^ 0 ^^^ 0),
        0x55] := by
  funext i
  unfold formatTelemetry
  simp only [createChecksum_eq]
  fin_cases i <;> rfl

/-! ### Binary32 rounding -/

theorem roundHalfEven_cases (x : ℚ) :
    roundHalfEven x = Int.floor x ∨
      (roundHalfEven x = Int.floor x + 1 ∧ (1 : ℚ) / 2 ≤ x - Int.floor x) := by
  unfold roundHalfEven
  simp only
  by_cases h1 : x - (Int.floor x : ℚ) < 1 / 2
  · rw [if_pos h1]; exact Or.inl rfl
  · rw [if_neg h1]
    by_cases h2 : (1 : ℚ) / 2 < x - (Int.floor x : ℚ)
    · rw [if_pos h2]; exact Or.inr ⟨rfl, le_of_lt h2⟩
    · rw [if_neg h2]
      by_cases h3 : Int.floor x % 2 = 0
      · rw [if_pos h3]; exact Or.inl rfl
      · rw [if_neg h3]; exact Or.inr ⟨rfl, not_lt.mp h1⟩

theorem le_roundHalfEven (x : ℚ) (n : Int) (h : (n : ℚ) ≤ x) : n ≤ roundHalfEven x := by
  have hf : n ≤ Int.floor x := Int.le_floor.mpr h
  rcases roundHalfEven_cases x with h1 | ⟨h1, _⟩ <;> omega

theorem roundHalfEven_le (x : ℚ) (n : Int) (h : x ≤ (n : ℚ)) : roundHalfEven x ≤ n := by
  rcases roundHalfEven_cases x with h1 | ⟨h1, h2⟩
  · rw [h1]
    have hle : (Int.floor x : ℚ) ≤ n := le_trans (Int.floor_le x) h
    exact_mod_cast hle
  · rw [h1]
    have hlt : (Int.floor x : ℚ) < n := by linarith
    have : Int.floor x < n := by exact_mod_cast hlt
    omega

theorem roundHalfEven_eq_of_near (x : ℚ) (n : Int)
    (h1 : (n : ℚ) - 1 / 2 < x) (h2 : x < (n : ℚ) + 1 / 2) : roundHalfEven x = n := by
  unfold roundHalfEven
  simp only
  by_cases hn : (n : ℚ) ≤ x
  · have hf : Int.floor x = n := by
      rw [Int.floor_eq_iff]; constructor
      · exact hn
      · linarith
    rw [hf, if_pos (by linarith)]
  · have hn' : x < n := not_le.mp hn
    have hf : Int.floor x = n - 1 := by
      rw [Int.floor_eq_iff]; push_cast; constructor <;> linarith
    rw [hf]
    push_cast
    rw [if_neg (by linarith), if_pos (by linarith)]
    ring

theorem float32Ulp_pos (q : ℚ) : 0 < float32Ulp q := by
  unfold float32Ulp
  exact zpow_pos (by norm_num) _

theorem log_eq_of_bounds (r : ℚ) (e : Int) (h1 : (2 : ℚ) ^ e ≤ r) (h2 : r < (2 : ℚ) ^ (e + 1)) :
    Int.log 2 r = e := by
  have hr : 0 < r := lt_of_lt_of_le (zpow_pos (by norm_num) e) h1
  have a : e ≤ Int.log 2 r := by
    rw [← Int.zpow_le_iff_le_log (by norm_num) hr]
    exact_mod_cast h1
  have b : Int.log 2 r < e + 1 := by
    rw [← Int.lt_zpow_iff_log_lt (by norm_num) hr]
    exact_mod_cast h2
  omega

theorem float32Ulp_eq (q : ℚ) (e : Int) (h1 : (2 : ℚ) ^ e ≤ |q|)
    (h2 : |q| < (2 : ℚ) ^ (e + 1)) (h3 : -126 ≤ e) :
    float32Ulp q = (2 : ℚ) ^ (e - 23) := by
  unfold float32Ulp
  rw [log_eq_of_bounds |q| e h1 h2, max_eq_left h3]

theorem float32Ulp_of_small (q : ℚ) (h : |q| < 256) :
    ∃ j : Nat, float32Ulp q = ((2 : ℚ) ^ j)⁻¹ := by
  have hlog : Int.log 2 |q| ≤ 7 := by
    by_cases h0 : |q| = 0
    · rw [h0, Int.log_zero_right]; decide
    · have hpos : 0 < |q| := lt_of_le_of_ne (abs_nonneg q) (Ne.symm h0)
      have : Int.log 2 |q| < 8 := by
        rw [← Int.lt_zpow_iff_log_lt (by norm_num) hpos]
        norm_num
        exact h
      omega
  refine ⟨(23 - max (Int.log 2 |q|) (-126)).toNat, ?_⟩
  unfold float32Ulp
  have hE : max (Int.log 2 |q|) (-126) - 23
      = -(((23 - max (Int.log 2 |q|) (-126)).toNat : Nat) : Int) := by
    omega
  rw [hE, zpow_neg, zpow_natCast]

/-- Rounding to binary32 does not cross an integer: an integer below the exact
value stays below the rounded value (for magnitudes below 256, where every
integer lies on the binary32 grid). -/
theorem le_roundFloat32 (q : ℚ) (h : |q| < 256) (n : Int) (hn : (n : ℚ) ≤ q) :
    (n : ℚ) ≤ roundFloat32 q := by
  obtain ⟨j, hj⟩ := float32Ulp_of_small q h
  unfold roundFloat32
  rw [hj]
  have hp : (0 : ℚ) < (2 : ℚ) ^ j := pow_pos (by norm_num) j
  have hcast : ((n * 2 ^ j : Int) : ℚ) ≤ q / ((2 : ℚ) ^ j)⁻¹ := by
    rw [div_inv_eq_mul]; push_cast
    exact mul_le_mul_of_nonneg_right hn (le_of_lt hp)
  have hr := le_roundHalfEven _ _ hcast
  have hr' : ((n * 2 ^ j : Int) : ℚ) ≤ (roundHalfEven (q / ((2 : ℚ) ^ j)⁻¹) : ℚ) := by
    exact_mod_cast hr
  push_cast at hr'
  rw [← div_eq_mul_inv, le_div_iff₀ hp]
  exact hr'

theorem roundFloat32_le (q : ℚ) (h : |q| < 256) (n : Int) (hn : q ≤ (n : ℚ)) :
    roundFloat32 q ≤ (n : ℚ) := by
  obtain ⟨j, hj⟩ := float32Ulp_of_small q h
  unfold roundFloat32
  rw [hj]
  have hp : (0 : ℚ) < (2 : ℚ) ^ j := pow_pos (by norm_num) j
  have hcast : q / ((2 : ℚ) ^ j)⁻¹ ≤ ((n * 2 ^ j : Int) : ℚ) := by
    rw [div_inv_eq_mul]; push_cast
    exact mul_le_mul_of_nonneg_right hn (le_of_lt hp)
  have hr := roundHalfEven_le _ _ hcast
  have hr' : (roundHalfEven (q / ((2 : ℚ) ^ j)⁻¹) : ℚ) ≤ ((n * 2 ^ j : Int) : ℚ) := by
    exact_mod_cast hr
  push_cast at hr'
  rw [← div_eq_mul_inv, div_le_iff₀ hp]
  exact hr'

theorem roundFloat32_eq_of_near (q : ℚ) (e : Int) (n : Int)
    (h1 : (2 : ℚ) ^ e ≤ |q|) (h2 : |q| < (2 : ℚ) ^ (e + 1)) (h3 : -126 ≤ e)
    (h4 : (n : ℚ) - 1 / 2 < q / (2 : ℚ) ^ (e - 23))
    (h5 : q / (2 : ℚ) ^ (e - 23) < (n : ℚ) + 1 / 2) :
    roundFloat32 q = (n : ℚ) * (2 : ℚ) ^ (e - 23) := by
  unfold roundFloat32
  rw [float32Ulp_eq q e h1 h2 h3, roundHalfEven_eq_of_near _ n h4 h5]

theorem roundFloat32_intCast (n : Int) (h : |(n : ℚ)| < 256) : roundFloat32 (n : ℚ) = n :=
  le_antisymm (roundFloat32_le _ h n le_rfl) (le_roundFloat32 _ h n le_rfl)

theorem abs_lt_256_of_range (x : ℚ) (h0 : 0 ≤ x) (h1 : x ≤ 250) : |x| < 256 := by
  rw [abs_of_nonneg h0]; linarith

theorem voltageByte_of_floor (voltage : ℚ) (n : Nat) (hn : n ≤ 250)
    (hr : 0 ≤ roundFloat32 ((if voltage > 25 then 25 else voltage) * 10))
    (hf : Int.floor (roundFloat32 ((if voltage > 25 then 25 else voltage) * 10)) = n) :
    (voltageByte voltage).val = n := by
  unfold voltageByte floatToUInt8 toUInt8
  rw [if_pos hr, hf]
  show ((n : Int) % 256).toNat % 256 = n
  omega

theorem voltageByte_example : voltageByte (37 / 5) = 74 := by
  have h : ¬ ((37 : ℚ) / 5 > 25) := by norm_num
  have e : (37 : ℚ) / 5 * 10 = ((74 : Int) : ℚ) := by norm_num
  have r : roundFloat32 ((if (37 : ℚ) / 5 > 25 then 25 else (37 : ℚ) / 5) * 10) = 74 := by
    rw [if_neg h, e, roundFloat32_intCast 74 (by norm_num [abs_of_nonneg])]
    norm_num
  apply Fin.ext
  rw [voltageByte_of_floor (37 / 5) 74 (by decide) (by rw [r]; norm_num)
    (by rw [r]; norm_num)]
  rfl

theorem toUInt8_mask (n : Nat) : (toUInt8 (n &&& 0xFF)).val = n % 256 := by
  have h : n &&& 0xFF = n % 256 := Nat.and_pow_two_sub_one_eq_mod n 8
  rw [h]
  exact Nat.mod_mod n 256

/-- The voltage byte for a non-negative voltage: the truncation of the binary32
product, which lies in [0, 250] and is the truncation of the exact product or
one more. -/
theorem voltageByte_val (voltage : ℚ) (h0 : 0 ≤ voltage) :
    ((voltageByte voltage).val : Int) = Int.floor (roundFloat32 (min voltage 25 * 10)) ∧
    (0 ≤ roundFloat32 (min voltage 25 * 10) ∧ roundFloat32 (min voltage 25 * 10) ≤ 250) ∧
    (Int.floor (min voltage 25 * 10) ≤ Int.floor (roundFloat32 (min voltage 25 * 10)) ∧
      Int.floor (roundFloat32 (min voltage 25 * 10)) ≤ Int.floor (min voltage 25 * 10) + 1) := by
  have hc : (if voltage > 25 then 25 else voltage) = min voltage 25 := by
    by_cases h : voltage > 25
    · rw [if_pos h, min_eq_right (le_of_lt h)]
    · rw [if_neg h, min_eq_left (not_lt.mp h)]
  have hm0 : (0 : ℚ) ≤ min voltage 25 * 10 :=
    mul_nonneg (le_min h0 (by norm_num)) (by norm_num)
  have hm1 : min voltage 25 * 10 ≤ 250 := by
    have : min voltage 25 ≤ 25 := min_le_right _ _
    linarith
  have habs := abs_lt_256_of_range _ hm0 hm1
  have hr0 : 0 ≤ roundFloat32 (min voltage 25 * 10) := by
    have := le_roundFloat32 _ habs 0 (by exact_mod_cast hm0)
    exact_mod_cast this
  have hr1 : roundFloat32 (min voltage 25 * 10) ≤ 250 := by
    have := roundFloat32_le _ habs 250 (by exact_mod_cast hm1)
    exact_mod_cast this
  have hlo : Int.floor (min voltage 25 * 10) ≤ Int.floor (roundFloat32 (min voltage 25 * 10)) :=
    Int.le_floor.mpr (le_roundFloat32 _ habs _ (Int.floor_le _))
  have hhi : Int.floor (roundFloat32 (min voltage 25 * 10))
      ≤ Int.floor (min voltage 25 * 10) + 1 := by
    have h1 : roundFloat32 (min voltage 25 * 10)
        ≤ ((Int.floor (min voltage 25 * 10) + 1 : Int) : ℚ) :=
      roundFloat32_le _ habs _ (by push_cast; exact le_of_lt (Int.lt_floor_add_one _))
    have h2 : ((Int.floor (roundFloat32 (min voltage 25 * 10)) : Int) : ℚ)
        ≤ ((Int.floor (min voltage 25 * 10) + 1 : Int) : ℚ) :=
      le_trans (Int.floor_le _) h1
    exact_mod_cast h2
  have hf0 : 0 ≤ Int.floor (roundFloat32 (min voltage 25 * 10)) := Int.floor_nonneg.mpr hr0
  have hf1 : Int.floor (roundFloat32 (min voltage 25 * 10)) ≤ 250 := by
    have h1 : ((Int.floor (roundFloat32 (min voltage 25 * 10)) : Int) : ℚ) ≤ ((250 : Int) : ℚ) :=
      le_trans (Int.floor_le _) (by exact_mod_cast hr1)
    exact_mod_cast h1
  refine ⟨?_, ⟨hr0, hr1⟩, hlo, hhi⟩
  unfold voltageByte floatToUInt8 toUInt8
  rw [hc, if_pos hr0]
  show ((((Int.floor (roundFloat32 (min voltage 25 * 10))) % 256).toNat % 256 : Nat) : Int) = _
  omega

theorem roundFloat32_product_0p7f : roundFloat32 (voltage0p7f * 10) = 7 := by
  unfold voltage0p7f
  rw [roundFloat32_eq_of_near _ 2 14680064 (by norm_num [abs_of_nonneg])
    (by norm_num [abs_of_nonneg]) (by norm_num) (by norm_num) (by norm_num)]
  norm_num

theorem roundFloat32_product_7p4f : roundFloat32 (voltage7p4f * 10) = 74 := by
  unfold voltage7p4f
  rw [roundFloat32_eq_of_near _ 6 9699328 (by norm_num [abs_of_nonneg])
    (by norm_num [abs_of_nonneg]) (by norm_num) (by norm_num) (by norm_num)]
  norm_num

theorem roundFloat32_0p7f : roundFloat32 voltage0p7f = voltage0p7f := by
  unfold voltage0p7f
  rw [roundFloat32_eq_of_near _ (-1) 11744051 (by norm_num [abs_of_nonneg])
    (by norm_num [abs_of_nonneg]) (by norm_num) (by norm_num) (by norm_num)]
  norm_num

theorem roundFloat32_7p4f : roundFloat32 voltage7p4f = voltage7p4f := by
  unfold voltage7p4f
  rw [roundFloat32_eq_of_near _ 2 15518925 (by norm_num [abs_of_nonneg])
    (by norm_num [abs_of_nonneg]) (by norm_num) (by norm_num) (by norm_num)]
  norm_num

theorem voltageByte_0p7f : voltageByte voltage0p7f = 7 := by
  have h : ¬ (voltage0p7f > 25) := by unfold voltage0p7f; norm_num
  have r : roundFloat32 ((if voltage0p7f > 25 then 25 else voltage0p7f) * 10) = 7 := by
    rw [if_neg h, roundFloat32_product_0p7f]
  apply Fin.ext
  rw [voltageByte_of_floor voltage0p7f 7 (by decide) (by rw [r]; norm_num)
    (by rw [r]; norm_num)]
  rfl

theorem voltageByte_7p4f : voltageByte voltage7p4f = 74 := by
  have h : ¬ (voltage7p4f > 25) := by unfold voltage7p4f; norm_num
  have r : roundFloat32 ((if voltage7p4f > 25 then 25 else voltage7p4f) * 10) = 74 := by
    rw [if_neg h, roundFloat32_product_7p4f]
  apply Fin.ext
  rw [voltageByte_of_floor voltage7p4f 74 (by decide) (by rw [r]; norm_num)
    (by rw [r]; norm_num)]
  rfl

theorem toUInt8_xor17_val (b : Buffer) : (toUInt8 (xor17 b)).val = xor17 b :=
  toUInt8_val_of_lt _ (xor17_lt b)

theorem createChecksum_apply_8 (b : Buffer) : (createChecksum b 8).val = xor17 b := by
  rw [createChecksum_eq, Function.update_same]
  exact toUInt8_xor17_val b

theorem createChecksum_apply_ne (b : Buffer) (i : Fin 10) (h : i ≠ 8) :
    createChecksum b i = b i := by
  rw [createChecksum_eq, Function.update_noteq h]

theorem xor17_createChecksum (b : Buffer) : xor17 (createChecksum b) = xor17 b := by
  rw [createChecksum_eq, xor17_update_8]

theorem createChecksum_eq_self_iff (b : Buffer) :
    createChecksum b = b ↔ (b 8).val = xor17 b := by
  constructor
  · intro h
    rw [← createChecksum_apply_8 b, h]
  · intro h
    rw [createChecksum_eq]
    have e : toUInt8 (xor17 b) = b 8 := by
      apply Fin.ext
      rw [toUInt8_xor17_val, h]
    rw [e, Function.update_eq_self]

theorem createChecksum_idem (b : Buffer) :
    createChecksum (createChecksum b) = createChecksum b := by
  rw [createChecksum_eq_self_iff, createChecksum_apply_8, xor17_createChecksum]

theorem wellFormed_createChecksum (b : Buffer) (h0 : b 0 = 0xAA) (h9 : b 9 = 0x55) :
    WellFormed (createChecksum b) := by
  refine ⟨?_, ?_, ?_⟩
  · rw [createChecksum_apply_ne b 0 (by decide)]; exact h0
  · rw [createChecksum_apply_ne b 9 (by decide)]; exact h9
  · rw [createChecksum_apply_8, xor17_createChecksum]

/-- Replacing one byte of a well-formed frame by a different value breaks
well-formedness. -/
theorem not_wellFormed_update (b : Buffer) (hwf : WellFormed b) (i : Fin 10) (v : uint8_t)
    (hne : v ≠ b i) : ¬ WellFormed (Function.update b i v) := by
  obtain ⟨h0, h9, h8⟩ := hwf
  have hv : v.val ≠ (b i).val := fun h => hne (Fin.ext h)
  rintro ⟨g0, g9, g8⟩
  fin_cases i <;>
    simp [xor17, Function.update, Nat.xor_left_inj, Nat.xor_right_inj] at g0 g9 g8 hv hne <;>
    simp_all [xor17, Nat.xor_left_inj, Nat.xor_right_inj]

theorem xor17_eq_foldl (b : Buffer) :
    xor17 b = (payloadIndices.map (fun i => (b i).val)).foldl (fun a x => a ^^^ x) 0 := by
  simp [xor17, payloadIndices]

theorem mem_payloadIndices (i : Fin 10) :
    i ∈ payloadIndices ↔ i ≠ 0 ∧ i ≠ 8 ∧ i ≠ 9 := by
  revert i; decide

theorem payloadIndices_map_perm (p : Equiv.Perm (Fin 10))
    (h0 : p 0 = 0) (h8 : p 8 = 8) (h9 : p 9 = 9) :
    List.Perm (payloadIndices.map p) payloadIndices := by
  have hnd : payloadIndices.Nodup := by decide
  rw [List.perm_ext_iff_of_nodup (hnd.map p.injective) hnd]
  intro a
  simp only [List.mem_map, mem_payloadIndices]
  constructor
  · rintro ⟨i, ⟨i0, i8, i9⟩, rfl⟩
    refine ⟨?_, ?_, ?_⟩
    · intro h; exact i0 (p.injective (h.trans h0.symm))
    · intro h; exact i8 (p.injective (h.trans h8.symm))
    · intro h; exact i9 (p.injective (h.trans h9.symm))
  · rintro ⟨a0, a8, a9⟩
    refine ⟨p.symm a, ⟨?_, ?_, ?_⟩, p.apply_symm_apply a⟩
    · intro h; apply a0; rw [← p.apply_symm_apply a, h, h0]
    · intro h; apply a8; rw [← p.apply_symm_apply a, h, h8]
    · intro h; apply a9; rw [← p.apply_symm_apply a, h, h9]

theorem xor17_comp_perm (b : Buffer) (p : Equiv.Perm (Fin 10))
    (h0 : p 0 = 0) (h8 : p 8 = 8) (h9 : p 9 = 9) :
    xor17 (b ∘ p) = xor17 b := by
  rw [xor17_eq_foldl, xor17_eq_foldl]
  have hp := (payloadIndices_map_perm p h0 h8 h9).map (fun i => (b i).val)
  rw [List.map_map] at hp
  have hrc : ∀ (a x y : Nat), (a ^^^ x) ^^^ y = (a ^^^ y) ^^^ x := by
    intro a x y
    rw [Nat.xor_assoc, Nat.xor_comm x y, ← Nat.xor_assoc]
  exact hp.foldl_eq' (fun x _ y _ a => hrc a x y) 0

/-! ## Frame validation -/

/-- C1: for every 10-byte buffer, `validateChecksum` returns true exactly when
byte 0 is 0xAA, byte 9 is 0x55 and byte 8 equals the XOR of the seven bytes at
indices 1 through 7. -/
theorem validateChecksum_iff (b : Buffer) :
    validateChecksum b = true ↔
      b 0 = 0xAA ∧ b 9 = 0x55 ∧
        (b 8).val = (b 1).val ^^^ (b 2).val ^^^ (b 3).val ^^^ (b 4).val ^^^
          (b 5).val ^^^ (b 6).val ^^^ (b 7).val := by
  rw [validateChecksum_eq_decide, decide_eq_true_iff]
  rfl

/-! ## Packet decoding -/

/-- C2: a buffer that is not well-formed (wrong start byte, wrong end byte, or
byte 8 different from the XOR of bytes 1 to 7) decodes to the all-default packet:
`valid = false`, `cmd = 0`, every axis field 0 and `auxBits = 0`, whatever the
command and payload bytes are. -/
theorem parsePacket_invalid (b : Buffer)
    (h : b 0 ≠ 0xAA ∨ b 9 ≠ 0x55 ∨
      (b 8).val ≠ (b 1).val ^^^ (b 2).val ^^^ (b 3).val ^^^ (b 4).val ^^^
        (b 5).val ^^^ (b 6).val ^^^ (b 7).val) :
    parsePacket b =
      { cmd := 0, leftX := 0, leftY := 0, rightX := 0, rightY := 0, rightZ := 0,
        auxBits := 0, valid := false } := by
  apply parsePacket_of_not_wellFormed
  rintro ⟨h0, h9, h8⟩
  rcases h with h | h | h
  · exact h h0
  · exact h h9
  · exact h h8

theorem parsePacket_invalid_witness :
    (badStartFrame 0 ≠ 0xAA ∨ badStartFrame 9 ≠ 0x55 ∨
      (badStartFrame 8).val ≠ (badStartFrame 1).val ^^^ (badStartFrame 2).val ^^^
        (badStartFrame 3).val ^^^ (badStartFrame 4).val ^^^ (badStartFrame 5).val ^^^
        (badStartFrame 6).val ^^^ (badStartFrame 7).val) ∧
    parsePacket badStartFrame =
      { cmd := 0, leftX := 0, leftY := 0, rightX := 0, rightY := 0, rightZ := 0,
        auxBits := 0, valid := false } :=
  ⟨Or.inl (by decide), parsePacket_invalid badStartFrame (Or.inl (by decide))⟩

/-- C3: round trip. For every device id, every voltage in [0, 25], every status
byte, every 32-bit packet counter and every previous content of the buffer, the
frame written by `formatTelemetry` decodes with `valid = true` and
`cmd = 0x10` (TELEMETRY). -/
theorem formatTelemetry_roundtrip (buffer : Buffer) (deviceId : uint8_t) (voltage : ℚ)
    (statusFlags : uint8_t) (packetsReceived : uint32_t)
    (_hlo : 0 ≤ voltage) (_hhi : voltage ≤ 25) :
    (parsePacket (formatTelemetry buffer deviceId voltage statusFlags packetsReceived)).valid
        = true ∧
    (parsePacket (formatTelemetry buffer deviceId voltage statusFlags packetsReceived)).cmd
        = 0x10 := by
  have hwf := formatTelemetry_wellFormed buffer deviceId voltage statusFlags packetsReceived
  have h2 : formatTelemetry buffer deviceId voltage statusFlags packetsReceived 2 = 0x10 := by
    rw [formatTelemetry_eq]; rfl
  rw [parsePacket_of_other _ hwf (by rw [h2]; decide) (by rw [h2]; decide)
    (by rw [h2]; decide), h2]
  exact ⟨rfl, rfl⟩

theorem formatTelemetry_roundtrip_witness :
    (0 : ℚ) ≤ 37 / 5 ∧ (37 / 5 : ℚ) ≤ 25 ∧
    (parsePacket (formatTelemetry staleBuffer 5 (37 / 5) 0x03 300)).valid = true ∧
    (parsePacket (formatTelemetry staleBuffer 5 (37 / 5) 0x03 300)).cmd = 0x10 :=
  ⟨by norm_num, by norm_num,
    formatTelemetry_roundtrip staleBuffer 5 (37 / 5) 0x03 300 (by norm_num) (by norm_num)⟩

/-- C4: a well-formed JOYSTICK frame decodes to `valid = true`, `cmd = 0x01`, the
four axes remapped from bytes 3 to 6, `auxBits` = byte 7 and `rightZ = 0`; the
scenario frame (device 0x01, payload [100, 0, 200, 0, 0x00]) decodes to
leftX = 0, leftY = -100, rightX = 100, auxBits = 0x00. -/
theorem parsePacket_joystick (b : Buffer) (hwf : WellFormed b) (hcmd : b 2 = 0x01) :
    parsePacket b =
      { cmd := 0x01, leftX := mapJoystickValue (b 3), leftY := mapJoystickValue (b 4),
        rightX := mapJoystickValue (b 5), rightY := mapJoystickValue (b 6),
        rightZ := 0, auxBits := b 7, valid := true } ∧
    parsePacket joystickFrame =
      { cmd := 0x01, leftX := 0, leftY := -100, rightX := 100, rightY := -100,
        rightZ := 0, auxBits := 0x00, valid := true } :=
  ⟨parsePacket_of_joystick b hwf hcmd, by decide⟩

theorem parsePacket_joystick_witness :
    WellFormed joystickFrame ∧ joystickFrame 2 = 0x01 ∧
    parsePacket joystickFrame =
      { cmd := 0x01, leftX := mapJoystickValue 100, leftY := mapJoystickValue 0,
        rightX := mapJoystickValue 200, rightY := mapJoystickValue 0,
        rightZ := 0, auxBits := 0, valid := true } :=
  ⟨by decide, by decide, (parsePacket_joystick joystickFrame (by decide) (by decide)).1⟩

/-- C5 as stated fails: on a well-formed BUTTON frame whose byte 3 is 200 the
field `leftX` is -56, not the raw value 200. -/
theorem parsePacket_button_raw_counterexample :
    WellFormed buttonFrame200 ∧ buttonFrame200 2 = 0x02 ∧
    ((buttonFrame200 3).val : Int) = 200 ∧
    (parsePacket buttonFrame200).leftX = -56 ∧
    (parsePacket buttonFrame200).leftX ≠ ((buttonFrame200 3).val : Int) := by
  decide

/-- C5 (amended): a well-formed BUTTON frame decodes to `valid = true`,
`cmd = 0x02`, `auxBits` = byte 3, `rightX = rightY = rightZ = 0`, and `leftX`,
`leftY` equal to bytes 3 and 4 read as signed 8-bit values: the raw value when it
is at most 127, the raw value minus 256 otherwise. -/
theorem parsePacket_button (b : Buffer) (hwf : WellFormed b) (hcmd : b 2 = 0x02) :
    parsePacket b =
      { cmd := 0x02,
        leftX := if (b 3).val ≤ 127 then ((b 3).val : Int) else ((b 3).val : Int) - 256,
        leftY := if (b 4).val ≤ 127 then ((b 4).val : Int) else ((b 4).val : Int) - 256,
        rightX := 0, rightY := 0, rightZ := 0, auxBits := b 3, valid := true } := by
  rw [← toInt8_byte, ← toInt8_byte]
  exact parsePacket_of_button b hwf hcmd

theorem parsePacket_button_witness :
    WellFormed buttonFrame200 ∧ buttonFrame200 2 = 0x02 ∧
    parsePacket buttonFrame200 =
      { cmd := 0x02, leftX := -56, leftY := 1, rightX := 0, rightY := 0, rightZ := 0,
        auxBits := 200, valid := true } :=
  ⟨by decide, by decide,
    (parsePacket_button buttonFrame200 (by decide) (by decide)).trans (by decide)⟩

/-- C6 as stated fails: a well-formed BUTTON frame with bytes 3 and 4 equal to 127
and 128 decodes to `leftX = 127` and `leftY = -128`, both outside [-100, 100]. -/
theorem parsePacket_range_counterexample :
    WellFormed buttonFrame127 ∧
    (parsePacket buttonFrame127).leftX = 127 ∧
    (parsePacket buttonFrame127).leftY = -128 ∧
    ¬ ((parsePacket buttonFrame127).leftX ≤ 100) ∧
    ¬ (-100 ≤ (parsePacket buttonFrame127).leftY) := by
  decide

/-- C6 (amended): for every 10-byte buffer, `rightX`, `rightY` and `rightZ` lie in
[-100, 100]; `leftX` and `leftY` lie in [-100, 100] too, except on a well-formed
BUTTON frame, where they lie in the `int8_t` range [-128, 127]. -/
theorem parsePacket_range (b : Buffer) :
    (-100 ≤ (parsePacket b).rightX ∧ (parsePacket b).rightX ≤ 100) ∧
    (-100 ≤ (parsePacket b).rightY ∧ (parsePacket b).rightY ≤ 100) ∧
    (-100 ≤ (parsePacket b).rightZ ∧ (parsePacket b).rightZ ≤ 100) ∧
    ((-100 ≤ (parsePacket b).leftX ∧ (parsePacket b).leftX ≤ 100 ∧
        -100 ≤ (parsePacket b).leftY ∧ (parsePacket b).leftY ≤ 100) ∨
      (WellFormed b ∧ b 2 = 0x02 ∧
        -128 ≤ (parsePacket b).leftX ∧ (parsePacket b).leftX ≤ 127 ∧
        -128 ≤ (parsePacket b).leftY ∧ (parsePacket b).leftY ≤ 127)) := by
  have z : -100 ≤ (0 : Int) ∧ (0 : Int) ≤ 100 := by decide
  by_cases hwf : WellFormed b
  · have m3 := mapJoystickValue_range (b 3)
    have m4 := mapJoystickValue_range (b 4)
    have m5 := mapJoystickValue_range (b 5)
    have m6 := mapJoystickValue_range (b 6)
    by_cases h1 : b 2 = 0x01
    · rw [parsePacket_of_joystick b hwf h1]
      exact ⟨m5, m6, z, Or.inl ⟨m3.1, m3.2, m4.1, m4.2⟩⟩
    · by_cases h2 : b 2 = 0x02
      · have t3 := toInt8_range ((b 3).val : Int)
        have t4 := toInt8_range ((b 4).val : Int)
        rw [parsePacket_of_button b hwf h2]
        exact ⟨z, z, z, Or.inr ⟨hwf, h2, t3.1, t3.2, t4.1, t4.2⟩⟩
      · by_cases h6 : b 2 = 0x06
        · rw [parsePacket_of_servoZ b hwf h6]
          exact ⟨z, z, m3, Or.inl ⟨z.1, z.2, z.1, z.2⟩⟩
        · rw [parsePacket_of_other b hwf h1 h2 h6]
          exact ⟨z, z, z, Or.inl ⟨z.1, z.2, z.1, z.2⟩⟩
  · rw [parsePacket_of_not_wellFormed b hwf]
    exact ⟨z, z, z, Or.inl ⟨z.1, z.2, z.1, z.2⟩⟩

/-- C7: for every byte, `mapJoystickValue raw = min raw 200 - 100`; this is the
value of the Arduino `map` on the clamped input, unchanged by the narrowing to
`int8_t`; it lies in [-100, 100]; and 0, 100, 200, 255 map to -100, 0, 100, 100. -/
theorem mapJoystickValue_spec (raw : uint8_t) :
    mapJoystickValue raw = min (raw.val : Int) 200 - 100 ∧
      mapJoystickValue raw = map (min (raw.val : Int) 200) 0 200 (-100) 100 ∧
      -100 ≤ mapJoystickValue raw ∧ mapJoystickValue raw ≤ 100 ∧
      mapJoystickValue 0 = -100 ∧ mapJoystickValue 100 = 0 ∧
      mapJoystickValue 200 = 100 ∧ mapJoystickValue 255 = 100 := by
  refine ⟨mapJoystickValue_eq raw, ?_, (mapJoystickValue_range raw).1,
    (mapJoystickValue_range raw).2, by decide, by decide, by decide, by decide⟩
  rw [mapJoystickValue_eq, map_joystick]

/-- C8: a well-formed SERVO_Z frame decodes to `valid = true`, `cmd = 0x06`,
`rightZ` remapped from byte 3, and every other field at its default 0,
whatever bytes 4 to 7 are. -/
theorem parsePacket_servoZ (b : Buffer) (hwf : WellFormed b) (hcmd : b 2 = 0x06) :
    parsePacket b =
      { cmd := 0x06, leftX := 0, leftY := 0, rightX := 0, rightY := 0,
        rightZ := mapJoystickValue (b 3), auxBits := 0, valid := true } :=
  parsePacket_of_servoZ b hwf hcmd

theorem parsePacket_servoZ_witness :
    WellFormed servoFrame ∧ servoFrame 2 = 0x06 ∧
    parsePacket servoFrame =
      { cmd := 0x06, leftX := 0, leftY := 0, rightX := 0, rightY := 0,
        rightZ := mapJoystickValue 150, auxBits := 0, valid := true } :=
  ⟨by decide, by decide, parsePacket_servoZ servoFrame (by decide) (by decide)⟩

/-- C9: a well-formed frame whose command byte is none of 0x01, 0x02, 0x06
decodes to `valid = true`, `cmd` = byte 2, and every axis field and `auxBits`
at 0, whatever the payload bytes are. -/
theorem parsePacket_other (b : Buffer) (hwf : WellFormed b)
    (h1 : b 2 ≠ 0x01) (h2 : b 2 ≠ 0x02) (h6 : b 2 ≠ 0x06) :
    parsePacket b =
      { cmd := b 2, leftX := 0, leftY := 0, rightX := 0, rightY := 0, rightZ := 0,
        auxBits := 0, valid := true } :=
  parsePacket_of_other b hwf h1 h2 h6

theorem parsePacket_other_witness :
    WellFormed estopFrame ∧ estopFrame 2 ≠ 0x01 ∧ estopFrame 2 ≠ 0x02 ∧
    estopFrame 2 ≠ 0x06 ∧
    parsePacket estopFrame =
      { cmd := 0x04, leftX := 0, leftY := 0, rightX := 0, rightY := 0, rightZ := 0,
        auxBits := 0, valid := true } :=
  ⟨by decide, by decide, by decide, by decide,
    parsePacket_other estopFrame (by decide) (by decide) (by decide) (by decide)⟩

/-! ## Telemetry encoding -/

/-- C10: after `formatTelemetry`, whatever the arguments and the previous buffer
content, byte 0 is 0xAA, byte 1 the device id, byte 2 is 0x10, byte 4 the status
flags, byte 5 the packet counter modulo 256, bytes 6 and 7 are 0, byte 8 is the
XOR of the final bytes 1 to 7 and byte 9 is 0x55; and `formatTelemetry(5, 7.4,
0x03, 300)` (7.4 taken as the rational 37/5) writes 5, 0x10, 74, 0x03, 44, 0, 0,
the XOR of these seven (112) and 0x55 after the start byte. -/
theorem formatTelemetry_layout (buffer : Buffer) (deviceId : uint8_t) (voltage : ℚ)
    (statusFlags : uint8_t) (packetsReceived : uint32_t) :
    formatTelemetry buffer deviceId voltage statusFlags packetsReceived 0 = 0xAA ∧
    formatTelemetry buffer deviceId voltage statusFlags packetsReceived 1 = deviceId ∧
    formatTelemetry buffer deviceId voltage statusFlags packetsReceived 2 = 0x10 ∧
    formatTelemetry buffer deviceId voltage statusFlags packetsReceived 4 = statusFlags ∧
    (formatTelemetry buffer deviceId voltage statusFlags packetsReceived 5).val
      = packetsReceived.val % 256 ∧
    formatTelemetry buffer deviceId voltage statusFlags packetsReceived 6 = 0 ∧
    formatTelemetry buffer deviceId voltage statusFlags packetsReceived 7 = 0 ∧
    (formatTelemetry buffer deviceId voltage statusFlags packetsReceived 8).val
      = (formatTelemetry buffer deviceId voltage statusFlags packetsReceived 1).val ^^^
        (formatTelemetry buffer deviceId voltage statusFlags packetsReceived 2).val ^^^
        (formatTelemetry buffer deviceId voltage statusFlags packetsReceived 3).val ^^^
        (formatTelemetry buffer deviceId voltage statusFlags packetsReceived 4).val ^^^
        (formatTelemetry buffer deviceId voltage statusFlags packetsReceived 5).val ^^^
        (formatTelemetry buffer deviceId voltage statusFlags packetsReceived 6).val ^^^
        (formatTelemetry buffer deviceId voltage statusFlags packetsReceived 7).val ∧
    formatTelemetry buffer deviceId voltage statusFlags packetsReceived 9 = 0x55 ∧
    formatTelemetry buffer 5 (37 / 5) 0x03 300 =
      ![0xAA, 5, 0x10, 74, 0x03, 44, 0, 0, 112, 0x55] ∧
    (formatTelemetry buffer 5 (37 / 5) 0x03 300 8).val
      = 5 ^^^ 0x10 ^^^ 74 ^^^ 0x03 ^^^ 44 ^^^ 0 ^^^ 0 := by
  have hwf := formatTelemetry_wellFormed buffer deviceId voltage statusFlags packetsReceived
  have hs : formatTelemetry buffer 5 (37 / 5) 0x03 300 =
      ![0xAA, 5, 0x10, 74, 0x03, 44, 0, 0, 112, 0x55] := by
    rw [formatTelemetry_eq, voltageByte_example]
    funext i
    fin_cases i <;> rfl
  refine ⟨hwf.1, ?_, ?_, ?_, ?_, ?_, ?_, hwf.2.2, hwf.2.1, hs, ?_⟩
  · rw [formatTelemetry_eq]; rfl
  · rw [formatTelemetry_eq]; rfl
  · rw [formatTelemetry_eq]; rfl
  · rw [formatTelemetry_eq]; exact toUInt8_mask packetsReceived.val
  · rw [formatTelemetry_eq]; rfl
  · rw [formatTelemetry_eq]; rfl
  · rw [hs]; decide

/-- C11 as stated fails: for the binary32 value nearest to 0.7 (a voltage in
[0, 25] that `roundFloat32` leaves unchanged) the byte written at index 3 is 7,
while the truncation of the exact product `min(voltage, 25) * 10`
(6.99999988...) is 6. -/
theorem formatTelemetry_voltage_counterexample :
    (0 : ℚ) ≤ voltage0p7f ∧ voltage0p7f ≤ 25 ∧
    roundFloat32 voltage0p7f = voltage0p7f ∧
    formatTelemetry staleBuffer 5 voltage0p7f 0x03 300 3 = 7 ∧
    Int.floor (min voltage0p7f 25 * 10) = 6 ∧
    ((formatTelemetry staleBuffer 5 voltage0p7f 0x03 300 3).val : Int)
      ≠ Int.floor (min voltage0p7f 25 * 10) := by
  have hb : formatTelemetry staleBuffer 5 voltage0p7f 0x03 300 3 = 7 := by
    rw [formatTelemetry_eq]; exact voltageByte_0p7f
  have hf : Int.floor (min voltage0p7f 25 * 10) = 6 := by
    have hm : min voltage0p7f 25 = voltage0p7f :=
      min_eq_left (by unfold voltage0p7f; norm_num)
    rw [hm, Int.floor_eq_iff]
    unfold voltage0p7f
    constructor <;> norm_num
  refine ⟨by unfold voltage0p7f; norm_num, by unfold voltage0p7f; norm_num,
    roundFloat32_0p7f, hb, hf, ?_⟩
  rw [hb, hf]
  decide

/-- C11 (amended): for a voltage of at least 0, the byte written at index 3 is
the truncation of the binary32 product `min(voltage, 25) * 10` (the exact product
rounded to the nearest binary32 value); the rounded product lies in [0, 250], so
the byte is stored without wrap-around; the byte is the truncation of the exact
product or one more; it is exactly 250 for every voltage above 25; 7.4 (as the
rational 37/5 and as the binary32 value nearest to 7.4) gives 74 and 30.0 gives
250. -/
theorem formatTelemetry_voltage (buffer : Buffer) (deviceId : uint8_t) (voltage : ℚ)
    (statusFlags : uint8_t) (packetsReceived : uint32_t) (h0 : 0 ≤ voltage) :
    ((formatTelemetry buffer deviceId voltage statusFlags packetsReceived 3).val : Int)
      = Int.floor (roundFloat32 (min voltage 25 * 10)) ∧
    (0 ≤ roundFloat32 (min voltage 25 * 10) ∧ roundFloat32 (min voltage 25 * 10) ≤ 250) ∧
    (Int.floor (min voltage 25 * 10)
        ≤ ((formatTelemetry buffer deviceId voltage statusFlags packetsReceived 3).val : Int) ∧
      ((formatTelemetry buffer deviceId voltage statusFlags packetsReceived 3).val : Int)
        ≤ Int.floor (min voltage 25 * 10) + 1) ∧
    (if voltage > 25 then
        formatTelemetry buffer deviceId voltage statusFlags packetsReceived 3 = 250
      else
        ((formatTelemetry buffer deviceId voltage statusFlags packetsReceived 3).val : Int)
          = Int.floor (roundFloat32 (voltage * 10))) ∧
    formatTelemetry buffer deviceId (37 / 5) statusFlags packetsReceived 3 = 74 ∧
    formatTelemetry buffer deviceId voltage7p4f statusFlags packetsReceived 3 = 74 ∧
    formatTelemetry buffer deviceId 30 statusFlags packetsReceived 3 = 250 := by
  have h3 : ∀ v : ℚ,
      formatTelemetry buffer deviceId v statusFlags packetsReceived 3 = voltageByte v := by
    intro v; rw [formatTelemetry_eq]; rfl
  have h250 : ∀ v : ℚ, v > 25 → voltageByte v = 250 := by
    intro v hv
    apply Fin.ext
    have h := (voltageByte_val v (le_trans (by norm_num) (le_of_lt hv))).1
    have e : min v 25 * 10 = ((250 : Int) : ℚ) := by
      rw [min_eq_right (le_of_lt hv)]; norm_num
    rw [e, roundFloat32_intCast 250 (by norm_num [abs_of_nonneg]), Int.floor_intCast] at h
    have : ((250 : uint8_t).val : Int) = 250 := rfl
    omega
  obtain ⟨hb, hrange, hlo, hhi⟩ := voltageByte_val voltage h0
  refine ⟨by rw [h3]; exact hb, hrange, ⟨by rw [h3, hb]; exact hlo, by rw [h3, hb]; exact hhi⟩,
    ?_, by rw [h3]; exact voltageByte_example, by rw [h3]; exact voltageByte_7p4f,
    by rw [h3]; exact h250 30 (by norm_num)⟩
  rw [h3]
  by_cases h : voltage > 25
  · rw [if_pos h]; exact h250 voltage h
  · rw [if_neg h]
    rw [min_eq_left (not_lt.mp h)] at hb
    exact hb

theorem formatTelemetry_voltage_witness :
    (0 : ℚ) ≤ voltage7p4f ∧
    ((formatTelemetry staleBuffer 5 voltage7p4f 0x03 300 3).val : Int)
      = Int.floor (roundFloat32 (min voltage7p4f 25 * 10)) ∧
    formatTelemetry staleBuffer 5 voltage7p4f 0x03 300 3 = 74 :=
  ⟨by unfold voltage7p4f; norm_num,
    (formatTelemetry_voltage staleBuffer 5 voltage7p4f 0x03 300
      (by unfold voltage7p4f; norm_num)).1,
    (formatTelemetry_voltage staleBuffer 5 voltage7p4f 0x03 300
      (by unfold voltage7p4f; norm_num)).2.2.2.2.2.1⟩

/-! ## Checksum creation and its agreement with validation -/

/-- C12: `createChecksum` writes the XOR of bytes 1 to 7 into byte 8 and leaves
the bytes at indices 0 to 7 and 9 as they were. -/
theorem createChecksum_frame (b : Buffer) :
    (createChecksum b 8).val = (b 1).val ^^^ (b 2).val ^^^ (b 3).val ^^^ (b 4).val ^^^
      (b 5).val ^^^ (b 6).val ^^^ (b 7).val ∧
    createChecksum b 0 = b 0 ∧ createChecksum b 1 = b 1 ∧ createChecksum b 2 = b 2 ∧
    createChecksum b 3 = b 3 ∧ createChecksum b 4 = b 4 ∧ createChecksum b 5 = b 5 ∧
    createChecksum b 6 = b 6 ∧ createChecksum b 7 = b 7 ∧ createChecksum b 9 = b 9 :=
  ⟨createChecksum_apply_8 b,
    createChecksum_apply_ne b 0 (by decide), createChecksum_apply_ne b 1 (by decide),
    createChecksum_apply_ne b 2 (by decide), createChecksum_apply_ne b 3 (by decide),
    createChecksum_apply_ne b 4 (by decide), createChecksum_apply_ne b 5 (by decide),
    createChecksum_apply_ne b 6 (by decide), createChecksum_apply_ne b 7 (by decide),
    createChecksum_apply_ne b 9 (by decide)⟩

/-- C13: on a buffer with both sentinels in place, `validateChecksum` is true
exactly when `createChecksum` leaves the buffer unchanged; and the buffer that
`createChecksum` produces always passes `validateChecksum`. -/
theorem validateChecksum_iff_createChecksum (b : Buffer)
    (h0 : b 0 = 0xAA) (h9 : b 9 = 0x55) :
    (validateChecksum b = true ↔ createChecksum b = b) ∧
    validateChecksum (createChecksum b) = true := by
  refine ⟨?_, validateChecksum_of_wellFormed _ (wellFormed_createChecksum b h0 h9)⟩
  rw [validateChecksum_eq_decide, decide_eq_true_iff, createChecksum_eq_self_iff]
  exact ⟨fun h => h.2.2, fun h => ⟨h0, h9, h⟩⟩

theorem validateChecksum_iff_createChecksum_witness :
    badChecksumFrame 0 = 0xAA ∧ badChecksumFrame 9 = 0x55 ∧
    validateChecksum badChecksumFrame = false ∧
    (validateChecksum badChecksumFrame = true ↔
      createChecksum badChecksumFrame = badChecksumFrame) ∧
    validateChecksum (createChecksum badChecksumFrame) = true :=
  ⟨by decide, by decide, by decide,
    validateChecksum_iff_createChecksum badChecksumFrame (by decide) (by decide)⟩

/-- C14: `createChecksum` is idempotent: a second application returns the same
buffer, and the checksum byte it computes equals the first one. -/
theorem createChecksum_idempotent (b : Buffer) :
    createChecksum (createChecksum b) = createChecksum b ∧
    createChecksum (createChecksum b) 8 = createChecksum b 8 :=
  ⟨createChecksum_idem b, by rw [createChecksum_idem]⟩

/-- C15: for a voltage in [0, 25], the frame written by `formatTelemetry` does
not depend on the previous content of the buffer: from any two initial buffers
the ten bytes produced are the same. -/
theorem formatTelemetry_deterministic (b b' : Buffer) (deviceId : uint8_t) (voltage : ℚ)
    (statusFlags : uint8_t) (packetsReceived : uint32_t)
    (_hlo : 0 ≤ voltage) (_hhi : voltage ≤ 25) :
    formatTelemetry b deviceId voltage statusFlags packetsReceived =
      formatTelemetry b' deviceId voltage statusFlags packetsReceived := by
  rw [formatTelemetry_eq, formatTelemetry_eq]

theorem formatTelemetry_deterministic_witness :
    (0 : ℚ) ≤ 37 / 5 ∧ (37 / 5 : ℚ) ≤ 25 ∧
    formatTelemetry staleBuffer 5 (37 / 5) 0x03 300 =
      formatTelemetry joystickFrame 5 (37 / 5) 0x03 300 :=
  ⟨by norm_num, by norm_num,
    formatTelemetry_deterministic staleBuffer joystickFrame 5 (37 / 5) 0x03 300
      (by norm_num) (by norm_num)⟩

/-! ## Behaviour of the checksum and of the BUTTON fields -/

/-- C16: single-byte error detection. If a buffer passes `validateChecksum`,
replacing any one byte by a different value gives a buffer that fails it, and
`parsePacket` returns `valid = false` for the modified buffer. -/
theorem validateChecksum_single_byte (b : Buffer) (hv : validateChecksum b = true)
    (i : Fin 10) (v : uint8_t) (hne : v ≠ b i) :
    validateChecksum (Function.update b i v) = false ∧
    (parsePacket (Function.update b i v)).valid = false := by
  have hwf : WellFormed b := by
    rw [validateChecksum_eq_decide, decide_eq_true_iff] at hv
    exact hv
  have hn := not_wellFormed_update b hwf i v hne
  refine ⟨validateChecksum_of_not_wellFormed _ hn, ?_⟩
  rw [parsePacket_of_not_wellFormed _ hn]

theorem validateChecksum_single_byte_witness :
    validateChecksum joystickFrame = true ∧ (101 : uint8_t) ≠ joystickFrame 3 ∧
    validateChecksum (Function.update joystickFrame 3 101) = false ∧
    (parsePacket (Function.update joystickFrame 3 101)).valid = false :=
  ⟨by decide, by decide,
    validateChecksum_single_byte joystickFrame (by decide) 3 101 (by decide)⟩

/-- C17: on a well-formed BUTTON frame, `leftX` and `leftY` are bytes 3 and 4
read as signed 8-bit values (the byte when it is at most 127, the byte minus 256
when it is 128 or more); `leftX mod 256 = auxBits` always holds, and `leftX`
equals the raw byte exactly when that byte is at most 127. -/
theorem parsePacket_button_signed (b : Buffer) (hwf : WellFormed b) (hcmd : b 2 = 0x02) :
    (parsePacket b).leftX =
      (if (b 3).val ≤ 127 then ((b 3).val : Int) else ((b 3).val : Int) - 256) ∧
    (parsePacket b).leftY =
      (if (b 4).val ≤ 127 then ((b 4).val : Int) else ((b 4).val : Int) - 256) ∧
    (parsePacket b).leftX % 256 = (((parsePacket b).auxBits).val : Int) ∧
    ((parsePacket b).leftX = ((b 3).val : Int) ↔ (b 3).val ≤ 127) := by
  rw [parsePacket_of_button b hwf hcmd]
  have h3 := toInt8_byte (b 3)
  have h4 := toInt8_byte (b 4)
  have l3 := (b 3).isLt
  refine ⟨h3, h4, ?_, ?_⟩
  · show toInt8 ((b 3).val : Int) % 256 = ((b 3).val : Int)
    rw [h3]; split <;> omega
  · show toInt8 ((b 3).val : Int) = ((b 3).val : Int) ↔ (b 3).val ≤ 127
    rw [h3]; split <;> omega

theorem parsePacket_button_signed_witness :
    WellFormed buttonFrame127 ∧ buttonFrame127 2 = 0x02 ∧
    (parsePacket buttonFrame127).leftX =
      (if (buttonFrame127 3).val ≤ 127 then ((buttonFrame127 3).val : Int)
        else ((buttonFrame127 3).val : Int) - 256) ∧
    (parsePacket buttonFrame127).leftY =
      (if (buttonFrame127 4).val ≤ 127 then ((buttonFrame127 4).val : Int)
        else ((buttonFrame127 4).val : Int) - 256) ∧
    (parsePacket buttonFrame127).leftX % 256 =
      (((parsePacket buttonFrame127).auxBits).val : Int) ∧
    ((parsePacket buttonFrame127).leftX = ((buttonFrame127 3).val : Int) ↔
      (buttonFrame127 3).val ≤ 127) :=
  ⟨by decide, by decide, parsePacket_button_signed buttonFrame127 (by decide) (by decide)⟩

/-- C18: the XOR checksum does not detect reordering. If a buffer passes
`validateChecksum` and `p` is a permutation of the ten indices that fixes 0, 8
and 9 (so it permutes 1 to 7), the buffer with bytes 1 to 7 permuted by `p` and
bytes 0, 8, 9 kept also passes. -/
theorem validateChecksum_perm (b : Buffer) (hv : validateChecksum b = true)
    (p : Equiv.Perm (Fin 10)) (h0 : p 0 = 0) (h8 : p 8 = 8) (h9 : p 9 = 9) :
    validateChecksum (b ∘ p) = true := by
  rw [validateChecksum_eq_decide, decide_eq_true_iff] at hv
  obtain ⟨w0, w9, w8⟩ := hv
  apply validateChecksum_of_wellFormed
  refine ⟨?_, ?_, ?_⟩
  · show b (p 0) = 0xAA
    rw [h0]; exact w0
  · show b (p 9) = 0x55
    rw [h9]; exact w9
  · show (b (p 8)).val = xor17 (b ∘ p)
    rw [h8, xor17_comp_perm b p h0 h8 h9]; exact w8

theorem validateChecksum_perm_witness :
    validateChecksum joystickFrame = true ∧
    (Equiv.swap (3 : Fin 10) 5) 0 = 0 ∧ (Equiv.swap (3 : Fin 10) 5) 8 = 8 ∧
    (Equiv.swap (3 : Fin 10) 5) 9 = 9 ∧
    (joystickFrame ∘ Equiv.swap (3 : Fin 10) 5) 3 = 200 ∧
    validateChecksum (joystickFrame ∘ Equiv.swap (3 : Fin 10) 5) = true :=
  ⟨by decide, by decide, by decide, by decide, by decide,
    validateChecksum_perm joystickFrame (by decide) (Equiv.swap 3 5)
      (by decide) (by decide) (by decide)⟩

/-! ## Order properties of the joystick remapping -/

/-- C19: for bytes `x ≤ y`, `mapJoystickValue x ≤ mapJoystickValue y`; the
inequality is strict exactly when `x < y` and `x < 200` (strictly increasing,
hence injective, on 0 to 200); the two values are equal exactly when `x = y` or
`x ≥ 200`; and the value is 100 exactly on 200 to 255. -/
theorem mapJoystickValue_monotone (x y : uint8_t) (h : x ≤ y) :
    mapJoystickValue x ≤ mapJoystickValue y ∧
    (mapJoystickValue x < mapJoystickValue y ↔ x < y ∧ x.val < 200) ∧
    (mapJoystickValue x = mapJoystickValue y ↔ x = y ∨ 200 ≤ x.val) ∧
    (mapJoystickValue x = 100 ↔ 200 ≤ x.val) := by
  have hxy : x.val ≤ y.val := h
  have hlt : x < y ↔ x.val < y.val := Iff.rfl
  have heq : x = y ↔ x.val = y.val := Fin.ext_iff
  rw [mapJoystickValue_eq, mapJoystickValue_eq, hlt, heq]
  omega

theorem mapJoystickValue_monotone_witness :
    (10 : uint8_t) ≤ 20 ∧
    mapJoystickValue 10 ≤ mapJoystickValue 20 ∧
    (mapJoystickValue 10 < mapJoystickValue 20 ↔
      (10 : uint8_t) < 20 ∧ (10 : uint8_t).val < 200) ∧
    (mapJoystickValue 10 = mapJoystickValue 20 ↔
      (10 : uint8_t) = 20 ∨ 200 ≤ (10 : uint8_t).val) ∧
    (mapJoystickValue 10 = 100 ↔ 200 ≤ (10 : uint8_t).val) :=
  ⟨by decide, mapJoystickValue_monotone 10 20 (by decide)⟩

end ArdunakonProtocol
